import Mathlib

/-
Verification of the subtask status-monitoring engine
(file src/automech/cli/_subtasks_status.py of the mechdriver repository).

Shallow embedding conventions:
- The filesystem is a snapshot `FS : String → List (String × Status)` mapping a
  directory (given by the absolute path against which pathlib resolves a glob)
  to the entries matched by `Path(dir).glob("out*.log")`, each paired with the
  Status that the external log parser `parse_log_status` assigns to it, in glob
  order.  `parse_log_status` lives in the module `_check_log`, which is not
  part of the sources; its output is therefore part of the snapshot.
- Fallible Python code (assert statements, TypeError from pathlib, IndexError
  from list indexing) is embedded with `Except String`.
- Printing is embedded by returning the list of printed lines; every
  filesystem access is additionally recorded as an `FsOp` so that
  read-only-ness is a provable statement rather than a modelling artifact.
- Python floats: the only float comparison is `error_frac < small_thresh` with
  the default `small_thresh = 0.2` (no caller in the repository overrides it)
  and `error_frac = error_count / n`, and the comparison is consulted only in
  branches that also require `error_count == 1` or `error_count == 2`.  For
  those two counts the IEEE-754 double verdict coincides with the exact test
  `5 * error_count < n` for every n: the doubles of 1/5 and 2/10 are exactly
  the double of the literal 0.2 (so n = 5 resp. n = 10 compare false), and
  every other quotient 1/n or 2/n is separated from 0.2 by far more than one
  ulp.  The embedding therefore uses the exact natural-number test.
-/

/-- Modelled from the spec: the closed Status classification vocabulary,
defined in the module _check_log which is absent from the sources.
Members: TBD, RUNNING, OK, WARNING, ERROR, OK_1E, OK_2E. -/
inductive Status where
  | TBD
  | RUNNING
  | OK
  | WARNING
  | ERROR
  | OK_1E
  | OK_2E
  deriving DecidableEq, Repr

deriving instance DecidableEq for Except

namespace Automech

/-- Filesystem snapshot: directory path (as resolved by pathlib against the
working directory) to the entries of glob("out*.log") inside it, each with the
Status the external log parser assigns to its text, in glob order.  A
directory that does not exist, or contains no matching log file, maps to []. -/
abbrev FS := String → List (String × Status)

/-- Embeds pathlib joining (Path(base) / p) and, equally, the resolution of a
possibly relative path p against a working directory: an absolute second
operand replaces the first, otherwise the two are joined. -/
def pathJoin (base p : String) : String :=
  if p.data.head? = some '/' then p else base ++ "/" ++ p

/-- Embeds log_paths_with_statuses (lines 82-93): glob the directory, parse
each log, and drop the entries whose status is in exclude_stats.  The returned
path strings are relative to the path argument, exactly as pathlib glob
returns them. -/
def log_paths_with_statuses (fs : FS) (cwd : String) (path : String)
    (exclude_stats : List Status) : List (String × Status) :=
  ((fs (pathJoin cwd path)).map (fun e => (pathJoin path e.1, e.2))).filter
    (fun e => ¬ e.2 ∈ exclude_stats)

/-- Message of the defensive assert on line 128. -/
def assert_set_msg : String :=
  "AssertionError: log_stat_set == \x7bStatus.OK, Status.WARNING\x7d"

/-- Embeds the float comparison error_count / total < 0.2 of line 120/122
(error_frac strictly below the default small_thresh).  As justified in the
header comment, at the consulted counts 1 and 2 the double comparison equals
this exact test at every total. -/
def error_frac_lt_thresh (error_count total : Nat) : Prop :=
  5 * error_count < total

instance (k n : Nat) : Decidable (error_frac_lt_thresh k n) := by
  unfold error_frac_lt_thresh; infer_instance

/-- Embeds the status-combination rules of parse_subtask_status
(lines 102-129) as a function of the list of per-log statuses:
zero logs to TBD; a single shared value to that value; RUNNING present to
RUNNING; then the error-count rules; then the defensive assert that the
remaining distinct statuses are exactly OK and WARNING (returning WARNING),
whose failure is the AssertionError of line 128. -/
def parse_status_list : List Status → Except String Status
  | [] => Except.ok Status.TBD
  | s :: rest =>
    if ∀ t ∈ rest, t = s then Except.ok s
    else if Status.RUNNING ∈ s :: rest then Except.ok Status.RUNNING
    else
      let error_count := (s :: rest).count Status.ERROR
      if error_count = 1 ∧ error_frac_lt_thresh error_count (s :: rest).length then
        Except.ok Status.OK_1E
      else if error_count = 2 ∧ error_frac_lt_thresh error_count (s :: rest).length then
        Except.ok Status.OK_2E
      else if Status.ERROR ∈ s :: rest then Except.ok Status.ERROR
      else if (∀ t ∈ s :: rest, t = Status.OK ∨ t = Status.WARNING)
          ∧ Status.OK ∈ s :: rest ∧ Status.WARNING ∈ s :: rest then
        Except.ok Status.WARNING
      else Except.error assert_set_msg

/-- Embeds parse_subtask_status (lines 96-129): collect the log statuses of
the directory (no exclusion) and combine them.  The Except.error results are
the AssertionError raised by line 128. -/
def parse_subtask_status (fs : FS) (cwd : String) (path : String) :
    Except String Status :=
  parse_status_list
    ((log_paths_with_statuses fs cwd path []).map (fun e => e.2))

/-- Embeds the Python format spec with right alignment, label padded with
spaces on the left up to the width (never truncated). -/
def padLeft (s : String) (w : Nat) : String :=
  String.mk (List.replicate (w - s.length) ' ') ++ s

/-- Embeds the Python format spec with left alignment, value padded with
spaces on the right up to the width (never truncated). -/
def padRight (s : String) (w : Nat) : String :=
  s ++ String.mk (List.replicate (w - s.length) ' ')

/-- Embeds the Python format spec with center alignment: the extra space goes
to the right when the padding is odd, as in str.format. -/
def center (s : String) (w : Nat) : String :=
  String.mk (List.replicate ((w - s.length) / 2) ' ') ++ s ++
    String.mk (List.replicate (w - s.length - (w - s.length) / 2) ' ')

/-- Fuel-driven helper for chunked; the fuel is the length of the initial
list, which bounds the number of chunks when n is positive. -/
def chunkedAux (n : Nat) : Nat → List α → List (List α)
  | _, [] => []
  | 0, _ :: _ => []
  | fuel + 1, x :: xs => (x :: xs).take n :: chunkedAux n fuel ((x :: xs).drop n)

/-- Embeds more_itertools.chunked: break a list into contiguous chunks of
length n, the last possibly shorter.  With n = 0 more_itertools yields no
chunks at all (take 0 immediately equals the empty-list sentinel), which the
n = 0 branch mirrors. -/
def chunked (l : List α) (n : Nat) : List (List α) :=
  if n = 0 then [] else chunkedAux n l.length l

/-- One printed line of print_task_row (lines 161-162): the right-aligned
label followed by the chunk cells, each center-aligned to STATUS_WIDTH and
joined by single spaces.  sw stands for STATUS_WIDTH, a constant of the
missing module _check_log, kept as a parameter. -/
def chunk_line (sw lw : Nat) (label : String) (cells : List String) : String :=
  padLeft label lw ++ String.intercalate " " (cells.map (fun v => center v sw))

/-- The loop of print_task_row (lines 160-164): one line per chunk, with the
label dropped after the first chunk. -/
def row_chunk_lines (sw lw : Nat) : String → List (List String) → List String
  | _, [] => []
  | label, c :: cs => chunk_line sw lw label c :: row_chunk_lines sw lw "" cs

/-- Embeds print_long_row_guide (lines 170-179): when the row has more values
than the wrap width, one horizontal line of the given character with total
width label_width + (STATUS_WIDTH + 1) * wrap; otherwise nothing. -/
def print_long_row_guide (sw lw nvals wrap : Nat) (ch : Char) : List String :=
  if nvals > wrap then [String.mk (List.replicate (lw + (sw + 1) * wrap) ch)] else []

/-- Embeds print_task_row (lines 152-167): the chunk lines followed by the
trailing guide line (character "-") when the row wraps. -/
def print_task_row (sw : Nat) (label : String) (vals : List String)
    (lw wrap : Nat) : List String :=
  row_chunk_lines sw lw label (chunked vals wrap) ++
    print_long_row_guide sw lw vals.length wrap '-'

/-- Modelled from the spec: the Task record of the setup module (absent from
the sources), as consumed by the status code: a name and the ordered subtask
partition keys. -/
structure Task where
  name : String
  subtask_keys : List String
  deriving DecidableEq, Repr

/-- Embeds task_column_width (lines 132-138): the longest task name.  Python
max raises on an empty sequence; groups always carry at least one task, and on
nonempty input the fold below agrees with max. -/
def task_column_width (tasks : List Task) : Nat :=
  (tasks.map (fun t => t.name.length)).foldl max 0

/-- First-occurrence deduplication with an accumulator of already seen keys,
embedding more_itertools.unique_everseen. -/
def unique_everseen_aux (seen : List String) : List String → List String
  | [] => []
  | x :: xs =>
    if x ∈ seen then unique_everseen_aux seen xs
    else x :: unique_everseen_aux (x :: seen) xs

/-- Embeds subtask_keys (lines 141-149): the union of all task subtask keys in
first-seen order. -/
def subtask_keys (tasks : List Task) : List String :=
  unique_everseen_aux [] (tasks.map (fun t => t.subtask_keys)).flatten

/-- One row of the group matrix CSV as iterated by pandas: the task-name cell
and the lookup of a partition-key column, where none stands for a blank cell
(pandas NaN) or an absent column (Series.get default). -/
structure Row where
  task : String
  get : String → Option String

/-- One task group: its id and the two persisted artifacts, the task catalog
(yaml) and the subtask matrix rows (csv). -/
structure Group where
  id : String
  tasks : List Task
  rows : List Row

/-- Modelled from the spec: the name of the manifest artifact written by
setup (INFO_FILE of the setup module, absent from the sources); the exact
value is immaterial to every claim. -/
def INFO_FILE : String := "info.yaml"

/-- Modelled from the spec: the header label of the task-name column
(TableKey.task of the setup module, absent from the sources). -/
def TABLE_KEY_task : String := "task"

/-- One record of the end-of-report diagnostic listing: task name, partition
key, log path as recorded by the code, and the log status. -/
structure LogRecord where
  task : String
  skey : String
  path : String
  stat : Status
  deriving DecidableEq, Repr

/-- Filesystem operations the status pass can issue.  The pass only ever
issues glob and readFile; writeFile is part of the vocabulary so that
read-only-ness is a statement about the emitted trace, not a typing accident. -/
inductive FsOp where
  | glob (dir : String)
  | readFile (path : String)
  | writeFile (path : String)
  deriving DecidableEq, Repr

/-- Whether an operation mutates the filesystem. -/
def FsOp.isWrite : FsOp → Bool
  | .writeFile _ => true
  | _ => false

/-- Interpretation of one operation on a filesystem snapshot: reads and globs
leave it untouched, a write changes the target directory. -/
def applyOp (w : FS) : FsOp → FS
  | .glob _ => w
  | .readFile _ => w
  | .writeFile p => fun d => if d = p then [] else w d

/-- Interpretation of an operation trace on a filesystem snapshot. -/
def applyOps (w : FS) (ops : List FsOp) : FS :=
  ops.foldl applyOp w

/-- The trace of one call of log_paths_with_statuses: a glob of the resolved
directory and one read per matched log file. -/
def log_glob_ops (fs : FS) (cwd path : String) : List FsOp :=
  FsOp.glob (pathJoin cwd path) ::
    (fs (pathJoin cwd path)).map (fun e => FsOp.readFile (pathJoin path e.1))

/-- Embeds line 57-59 of main: classify each absolute subtask path and color
the result, stopping at the first AssertionError out of parse_subtask_status.
colored stands for colored_status_string of the missing module _check_log. -/
def subtask_stats_of (fs : FS) (cwd : String) (colored : Status → String) :
    List String → List FsOp × Except String (List String)
  | [] => ([], Except.ok [])
  | p :: ps =>
    let ops := log_glob_ops fs cwd p
    match parse_subtask_status fs cwd p with
    | Except.error e => (ops, Except.error e)
    | Except.ok s =>
      match subtask_stats_of fs cwd colored ps with
      | (ops2, r) => (ops ++ ops2, r.map (fun l => colored s :: l))

/-- Embeds lines 62-68 of main: for every (key, cell path) pair of the row,
collect every log whose status is not OK.  Note that the cell path is used
exactly as written in the matrix (relative), so the glob resolves against the
working directory, not against the work root. -/
def collect_non_ok (fs : FS) (cwd : String) (task_name : String) :
    List (String × String) → List FsOp × List LogRecord
  | [] => ([], [])
  | (skey, spath) :: rest =>
    let ops := log_glob_ops fs cwd spath
    let recs := (log_paths_with_statuses fs cwd spath [Status.OK]).map
      (fun e => LogRecord.mk task_name skey e.1 e.2)
    match collect_non_ok fs cwd task_name rest with
    | (ops2, recs2) => (ops ++ ops2, recs ++ recs2)

/-- Message of the TypeError pathlib raises when a blank matrix cell (pandas
NaN, a float) is joined to the work root on line 56. -/
def type_error_msg : String :=
  "TypeError: argument should be a str or an os.PathLike object, not float"

/-- Embeds the body of the row loop of main (lines 52-68): the integrity
assert of line 53; the cell paths; the TypeError at the first blank cell when
building absolute paths; the per-cell classification; the printed row; and
the non-OK record collection.  Returns printed lines, the operation trace,
and either the collected records or the first uncaught exception. -/
def processRow (fs : FS) (cwd : String) (colored : Status → String) (sw : Nat)
    (work_path : String) (skeys : List String) (twidth wrap : Nat)
    (task : Task) (row : Row) :
    List String × List FsOp × Except String (List LogRecord) :=
  if row.task ≠ task.name then
    ([], [], Except.error (row.task ++ " does not match " ++ task.name))
  else
    let subtask_paths := skeys.map row.get
    if none ∈ subtask_paths then ([], [], Except.error type_error_msg)
    else
      let spaths := subtask_paths.filterMap id
      let abs_paths := spaths.map (fun p => pathJoin work_path p)
      match subtask_stats_of fs cwd colored abs_paths with
      | (ops, Except.error e) => ([], ops, Except.error e)
      | (ops, Except.ok stats) =>
        let lines := print_task_row sw task.name stats twidth wrap
        match collect_non_ok fs cwd task.name (skeys.zip spaths) with
        | (rops, recs) => (lines, ops ++ rops, Except.ok recs)

/-- Embeds the row loop of main (lines 51-68): pandas iterrows pairs row i
with tasks[i]; surplus rows raise IndexError; the first exception aborts the
loop, keeping the lines already printed. -/
def processRows (fs : FS) (cwd : String) (colored : Status → String) (sw : Nat)
    (work_path : String) (skeys : List String) (twidth wrap : Nat) :
    List Task → List Row → List String × List FsOp × Except String (List LogRecord)
  | _, [] => ([], [], Except.ok [])
  | [], _ :: _ => ([], [], Except.error "IndexError: list index out of range")
  | t :: ts, r :: rs =>
    match processRow fs cwd colored sw work_path skeys twidth wrap t r with
    | (ls, ops, Except.error e) => (ls, ops, Except.error e)
    | (ls, ops, Except.ok recs) =>
      match processRows fs cwd colored sw work_path skeys twidth wrap ts rs with
      | (ls2, ops2, res2) => (ls ++ ls2, ops ++ ops2, res2.map (fun x => recs ++ x))

/-- Embeds lines 46-69 of main for one group: column widths and key union,
the hash guide line, the header row, then the task rows; on success a blank
line closes the group. -/
def processGroup (fs : FS) (cwd : String) (colored : Status → String)
    (sw : Nat) (work_path : String) (wrap : Nat) (g : Group) :
    List String × List FsOp × Except String (List LogRecord) :=
  let twidth := task_column_width g.tasks
  let skeys := subtask_keys g.tasks
  let header := print_long_row_guide sw twidth skeys.length wrap '#' ++
    print_task_row sw TABLE_KEY_task skeys twidth wrap
  match processRows fs cwd colored sw work_path skeys twidth wrap g.tasks g.rows with
  | (ls, ops, Except.error e) => (header ++ ls, ops, Except.error e)
  | (ls, ops, Except.ok recs) => (header ++ ls ++ [""], ops, Except.ok recs)

/-- Embeds the group loop of main (lines 43-69): per group, read the matrix
csv and the catalog yaml, then process the group; the first exception aborts
the whole pass. -/
def runGroups (fs : FS) (cwd : String) (colored : Status → String) (sw : Nat)
    (root work_path : String) (wrap : Nat) :
    List Group → List String × List FsOp × Except String (List LogRecord)
  | [] => ([], [], Except.ok [])
  | g :: gs =>
    let gops := [FsOp.readFile (pathJoin root (g.id ++ ".csv")),
      FsOp.readFile (pathJoin root (g.id ++ ".yaml"))]
    match processGroup fs cwd colored sw work_path wrap g with
    | (ls, ops, Except.error e) => (ls, gops ++ ops, Except.error e)
    | (ls, ops, Except.ok recs) =>
      match runGroups fs cwd colored sw root work_path wrap gs with
      | (ls2, ops2, res2) => (ls ++ ls2, gops ++ ops ++ ops2, res2.map (fun x => recs ++ x))

/-- Embeds lines 71-79 of main: the diagnostic listing of all non-OK log
records, one aligned line per record with every padded column as wide as the
longest value of its field, preceded by a heading naming the work root; a
trailing blank line is printed in every case. -/
def render_non_ok (colored : Status → String) (work_path : String) :
    List LogRecord → List String
  | [] => [""]
  | r :: rs =>
    let recs := r :: rs
    let tw := (recs.map (fun x => x.task.length)).foldl max 0
    let kw := (recs.map (fun x => x.skey.length)).foldl max 0
    let pw := (recs.map (fun x => x.path.length)).foldl max 0
    ("Non-OK log files in " ++ work_path ++ ":") ::
      recs.map (fun x =>
        padRight x.task tw ++ " " ++ padRight x.skey kw ++ " " ++
          padRight x.path pw ++ " " ++ colored x.stat) ++ [""]

/-- Result of one whole status pass: the printed report, the trace of
filesystem operations, and the uncaught exception if the pass aborted. -/
structure RunResult where
  lines : List String
  ops : List FsOp
  err : Option String
  deriving DecidableEq, Repr

/-- Embeds main (lines 23-79), after the manifest has been parsed into the
group list and work root: read the manifest file, process every group, and on
success append the non-OK diagnostic listing. -/
def mainModel (fs : FS) (cwd : String) (colored : Status → String) (sw : Nat)
    (root work_path : String) (gs : List Group) (wrap : Nat) : RunResult :=
  let iops := [FsOp.readFile (pathJoin root INFO_FILE)]
  match runGroups fs cwd colored sw root work_path wrap gs with
  | (ls, ops, Except.error e) => RunResult.mk ls (iops ++ ops) (some e)
  | (ls, ops, Except.ok recs) =>
    RunResult.mk (ls ++ render_non_ok colored work_path recs) (iops ++ ops) none

/-- Fixture: a subtask directory with one ERROR log among six. -/
def fsW1 : FS := fun d =>
  if d = "/w/s" then
    [("out1.log", Status.ERROR), ("out2.log", Status.OK), ("out3.log", Status.OK),
      ("out4.log", Status.OK), ("out5.log", Status.OK), ("out6.log", Status.OK)]
  else []

/-- Fixture: a subtask directory with one OK and one WARNING log. -/
def fsW2 : FS := fun d =>
  if d = "/w/s" then [("out1.log", Status.OK), ("out2.log", Status.WARNING)]
  else []

/-- Fixture: a subtask directory with a RUNNING log among OK logs. -/
def fsW3 : FS := fun d =>
  if d = "/w/s" then
    [("out1.log", Status.OK), ("out2.log", Status.OK), ("out3.log", Status.RUNNING)]
  else []

/-- Fixture: a subtask directory with one ERROR log and five TBD logs. -/
def fsW10 : FS := fun d =>
  if d = "/w/s" then
    [("out1.log", Status.ERROR), ("out2.log", Status.TBD), ("out3.log", Status.TBD),
      ("out4.log", Status.TBD), ("out5.log", Status.TBD), ("out6.log", Status.TBD)]
  else []

/-- Fixture: an entirely empty filesystem snapshot. -/
def fsEmpty : FS := fun _ => []

/-- Fixture: one ERROR log under the work root /scratch, nothing elsewhere. -/
def fsScratch : FS := fun d =>
  if d = "/scratch/sub/a" then [("out.log", Status.ERROR)] else []

/-- Fixture: a one-task group whose single cell points at sub/a. -/
def gScratch : Group :=
  Group.mk "els" [Task.mk "A" ["k1"]]
    [Row.mk "A" (fun k => if k = "k1" then some "sub/a" else none)]

/-- Fixture: a one-task group with a blank cell in column k2. -/
def gBlank : Group :=
  Group.mk "els" [Task.mk "A" ["k1", "k2"]]
    [Row.mk "A" (fun k => if k = "k1" then some "a" else none)]

/-- Fixture: a group whose matrix row name B disagrees with its task name A. -/
def gMismatch : Group :=
  Group.mk "els" [Task.mk "A" ["k1"]] [Row.mk "B" (fun _ => some "x")]

/-- Fixture: snapshot agreeing with fsAgreeB on the directory /w/s only. -/
def fsAgreeA : FS := fun d =>
  if d = "/w/s" then [("out1.log", Status.OK)] else []

/-- Fixture: snapshot agreeing with fsAgreeA on the directory /w/s only. -/
def fsAgreeB : FS := fun d =>
  if d = "/w/s" then [("out1.log", Status.OK)]
  else [("other.log", Status.ERROR)]

/-- A list with two distinct members does not satisfy the all-equal test of
line 110 (length of the status set equal to one). -/
lemma not_all_tail_eq_of_mixed {s : Status} {rest : List Status}
    (hmix : ∃ a ∈ s :: rest, ∃ b ∈ s :: rest, a ≠ b) :
    ¬ ∀ t ∈ rest, t = s := by
  intro hall
  obtain ⟨a, ha, b, hb, hne⟩ := hmix
  have hcons : ∀ t ∈ s :: rest, t = s := by
    intro t ht
    rcases List.mem_cons.mp ht with h | h
    · exact h
    · exact hall t h
  exact hne ((hcons a ha).trans (hcons b hb).symm)

/-- A list in which some value occurs but not everywhere has two distinct
members. -/
lemma mixed_of_count {l : List Status} {x : Status}
    (h1 : 0 < l.count x) (h2 : l.count x < l.length) :
    ∃ a ∈ l, ∃ b ∈ l, a ≠ b := by
  have hx : x ∈ l := List.count_pos_iff.mp h1
  by_contra hno
  push_neg at hno
  have hall : ∀ b ∈ l, x = b := fun b hb => hno x hx b hb
  have := List.count_eq_length.mpr hall
  omega

/-- Reduction of parse_status_list past the all-equal and RUNNING branches. -/
lemma parse_status_list_mixed_no_running {s : Status} {rest : List Status}
    (hmix : ¬ ∀ t ∈ rest, t = s) (hrun : Status.RUNNING ∉ s :: rest) :
    parse_status_list (s :: rest) =
      (if (s :: rest).count Status.ERROR = 1
          ∧ 5 * (s :: rest).count Status.ERROR < (s :: rest).length then
        Except.ok Status.OK_1E
      else if (s :: rest).count Status.ERROR = 2
          ∧ 5 * (s :: rest).count Status.ERROR < (s :: rest).length then
        Except.ok Status.OK_2E
      else if Status.ERROR ∈ s :: rest then Except.ok Status.ERROR
      else if (∀ t ∈ s :: rest, t = Status.OK ∨ t = Status.WARNING)
          ∧ Status.OK ∈ s :: rest ∧ Status.WARNING ∈ s :: rest then
        Except.ok Status.WARNING
      else Except.error assert_set_msg) := by
  simp only [parse_status_list, error_frac_lt_thresh]
  rw [if_neg hmix, if_neg hrun]

/-- One OK_1E-qualifying error count forces the OK_1E result. -/
lemma parse_ok1e {l : List Status}
    (hmix : ∃ a ∈ l, ∃ b ∈ l, a ≠ b) (hrun : Status.RUNNING ∉ l)
    (hc : l.count Status.ERROR = 1) (hf : 5 * l.count Status.ERROR < l.length) :
    parse_status_list l = Except.ok Status.OK_1E := by
  cases l with
  | nil => obtain ⟨a, ha, _⟩ := hmix; exact absurd ha (List.not_mem_nil a)
  | cons s rest =>
    rw [parse_status_list_mixed_no_running (not_all_tail_eq_of_mixed hmix) hrun,
      if_pos ⟨hc, hf⟩]

/-- Two OK_2E-qualifying errors force the OK_2E result. -/
lemma parse_ok2e {l : List Status}
    (hmix : ∃ a ∈ l, ∃ b ∈ l, a ≠ b) (hrun : Status.RUNNING ∉ l)
    (hc : l.count Status.ERROR = 2) (hf : 5 * l.count Status.ERROR < l.length) :
    parse_status_list l = Except.ok Status.OK_2E := by
  cases l with
  | nil => obtain ⟨a, ha, _⟩ := hmix; exact absurd ha (List.not_mem_nil a)
  | cons s rest =>
    rw [parse_status_list_mixed_no_running (not_all_tail_eq_of_mixed hmix) hrun,
      if_neg (by omega : ¬((s :: rest).count Status.ERROR = 1
        ∧ 5 * (s :: rest).count Status.ERROR < (s :: rest).length)),
      if_pos ⟨hc, hf⟩]

/-- An ERROR present with neither tolerance branch matching forces ERROR. -/
lemma parse_error {l : List Status}
    (hmix : ∃ a ∈ l, ∃ b ∈ l, a ≠ b) (hrun : Status.RUNNING ∉ l)
    (herr : Status.ERROR ∈ l)
    (h1 : ¬(l.count Status.ERROR = 1 ∧ 5 * l.count Status.ERROR < l.length))
    (h2 : ¬(l.count Status.ERROR = 2 ∧ 5 * l.count Status.ERROR < l.length)) :
    parse_status_list l = Except.ok Status.ERROR := by
  cases l with
  | nil => obtain ⟨a, ha, _⟩ := hmix; exact absurd ha (List.not_mem_nil a)
  | cons s rest =>
    rw [parse_status_list_mixed_no_running (not_all_tail_eq_of_mixed hmix) hrun,
      if_neg h1, if_neg h2, if_pos herr]

/-- With no ERROR (and mixed, RUNNING-free statuses) the result is the final
OK-and-WARNING test of lines 128-129. -/
lemma parse_no_error_branch {l : List Status}
    (hmix : ∃ a ∈ l, ∃ b ∈ l, a ≠ b) (hrun : Status.RUNNING ∉ l)
    (herr : Status.ERROR ∉ l) :
    parse_status_list l =
      (if (∀ t ∈ l, t = Status.OK ∨ t = Status.WARNING)
          ∧ Status.OK ∈ l ∧ Status.WARNING ∈ l then
        Except.ok Status.WARNING
      else Except.error assert_set_msg) := by
  cases l with
  | nil => obtain ⟨a, ha, _⟩ := hmix; exact absurd ha (List.not_mem_nil a)
  | cons s rest =>
    have hc : (s :: rest).count Status.ERROR = 0 := List.count_eq_zero.mpr herr
    rw [parse_status_list_mixed_no_running (not_all_tail_eq_of_mixed hmix) hrun,
      if_neg (by omega : ¬((s :: rest).count Status.ERROR = 1
        ∧ 5 * (s :: rest).count Status.ERROR < (s :: rest).length)),
      if_neg (by omega : ¬((s :: rest).count Status.ERROR = 2
        ∧ 5 * (s :: rest).count Status.ERROR < (s :: rest).length)),
      if_neg herr]

/-- The exact rational comparison k / n < 0.2 matches the natural-number test
used in the embedding. -/
lemma frac_lt_point_two_iff {k n : Nat} (hn : 0 < n) :
    ((k : ℚ) / (n : ℚ) < 0.2) ↔ 5 * k < n := by
  have h02 : (0.2 : ℚ) = 1 / 5 := by norm_num
  rw [h02, div_lt_div_iff₀ (by exact_mod_cast hn) (by norm_num : (0 : ℚ) < 5),
    one_mul]
  constructor
  · intro h
    have h2 : ((5 * k : ℕ) : ℚ) < ((n : ℕ) : ℚ) := by push_cast; linarith
    exact_mod_cast h2
  · intro h
    have h2 : ((5 * k : ℕ) : ℚ) < ((n : ℕ) : ℚ) := by exact_mod_cast h
    push_cast at h2
    linarith

/-- Unfolding parse_subtask_status to the status list of its directory. -/
lemma parse_subtask_status_eq {fs : FS} {cwd path : String} {l : List Status}
    (hl : (log_paths_with_statuses fs cwd path []).map (fun e => e.2) = l) :
    parse_subtask_status fs cwd path = parse_status_list l := by
  unfold parse_subtask_status
  rw [hl]

/-- Every group of a completed pass was processed without an exception:
an abort inside any group is never scoped away. -/
lemma runGroups_groups_ok {fs : FS} {cwd : String} {colored : Status → String}
    {sw : Nat} {root wp : String} {wrap : Nat} {gs : List Group}
    {recs : List LogRecord}
    (h : (runGroups fs cwd colored sw root wp wrap gs).2.2 = Except.ok recs) :
    ∀ g ∈ gs, ∃ r, (processGroup fs cwd colored sw wp wrap g).2.2 = Except.ok r := by
  induction gs generalizing recs with
  | nil => intro g hg; exact absurd hg (List.not_mem_nil g)
  | cons g0 gs ih =>
    intro g hg
    rcases hpg : processGroup fs cwd colored sw wp wrap g0 with ⟨ls, ops, res⟩
    cases res with
    | error e =>
      exfalso
      rw [runGroups, hpg] at h
      simp at h
    | ok recs0 =>
      rcases hrg : runGroups fs cwd colored sw root wp wrap gs with ⟨ls2, ops2, res2⟩
      rw [runGroups, hpg, hrg] at h
      cases res2 with
      | error e2 => simp [Except.map] at h
      | ok recs2 =>
        rcases List.mem_cons.mp hg with hg0 | hgs
        · subst hg0
          exact ⟨recs0, by rw [hpg]⟩
        · exact @ih recs2 (by rw [hrg]) g hgs

/-- A pass that ends without an uncaught exception processed every group
without one. -/
lemma mainModel_complete_groups_ok {fs : FS} {cwd : String}
    {colored : Status → String} {sw : Nat} {root wp : String} {gs : List Group}
    {wrap : Nat}
    (h : (mainModel fs cwd colored sw root wp gs wrap).err = none) :
    ∀ g ∈ gs, ∃ r, (processGroup fs cwd colored sw wp wrap g).2.2 = Except.ok r := by
  rcases hrg : runGroups fs cwd colored sw root wp wrap gs with ⟨ls, ops, res⟩
  cases res with
  | error e =>
    exfalso
    unfold mainModel at h
    rw [hrg] at h
    simp at h
  | ok recs => exact runGroups_groups_ok (by rw [hrg])

/-- C1: for every nonempty multiset of log statuses with at least two
distinct values and no RUNNING: exactly 1 ERROR with error fraction 1/N
strictly below 0.2 gives OK_1E; exactly 2 ERRORs with fraction 2/N strictly
below 0.2 gives OK_2E; any ERROR present with neither case matching gives
ERROR (in particular 1 ERROR among 5 logs, fraction exactly 0.2). -/
theorem subtask_status_error_tolerance (fs : FS) (cwd path : String)
    (l : List Status)
    (hl : (log_paths_with_statuses fs cwd path []).map (fun e => e.2) = l)
    (hne : l ≠ [])
    (hmix : ∃ a ∈ l, ∃ b ∈ l, a ≠ b)
    (hrun : Status.RUNNING ∉ l) :
    ((l.count Status.ERROR = 1 ∧ (1 : ℚ) / (l.length : ℚ) < 0.2) →
        parse_subtask_status fs cwd path = Except.ok Status.OK_1E)
    ∧ ((l.count Status.ERROR = 2 ∧ (2 : ℚ) / (l.length : ℚ) < 0.2) →
        parse_subtask_status fs cwd path = Except.ok Status.OK_2E)
    ∧ (Status.ERROR ∈ l →
        ¬(l.count Status.ERROR = 1 ∧ (1 : ℚ) / (l.length : ℚ) < 0.2) →
        ¬(l.count Status.ERROR = 2 ∧ (2 : ℚ) / (l.length : ℚ) < 0.2) →
        parse_subtask_status fs cwd path = Except.ok Status.ERROR) := by
  have hlen : 0 < l.length := by
    cases l with
    | nil => exact absurd rfl hne
    | cons s rest => simp
  refine ⟨?_, ?_, ?_⟩
  · rintro ⟨hc, hf⟩
    rw [parse_subtask_status_eq hl]
    have h5 : 5 * 1 < l.length :=
      (frac_lt_point_two_iff hlen).mp (by exact_mod_cast hf)
    exact parse_ok1e hmix hrun hc (by rw [hc]; exact h5)
  · rintro ⟨hc, hf⟩
    rw [parse_subtask_status_eq hl]
    have h5 : 5 * 2 < l.length :=
      (frac_lt_point_two_iff hlen).mp (by exact_mod_cast hf)
    exact parse_ok2e hmix hrun hc (by rw [hc]; exact h5)
  · intro herr h1 h2
    rw [parse_subtask_status_eq hl]
    refine parse_error hmix hrun herr ?_ ?_
    · rintro ⟨hc, hf⟩
      rw [hc] at hf
      exact h1 ⟨hc, by exact_mod_cast (frac_lt_point_two_iff hlen).mpr hf⟩
    · rintro ⟨hc, hf⟩
      rw [hc] at hf
      exact h2 ⟨hc, by exact_mod_cast (frac_lt_point_two_iff hlen).mpr hf⟩

/-- Witness for C1: one ERROR among six logs is classified OK_1E. -/
theorem subtask_status_error_tolerance_witness :
    parse_subtask_status fsW1 "/c" "/w/s" = Except.ok Status.OK_1E :=
  (subtask_status_error_tolerance fsW1 "/c" "/w/s"
      [Status.ERROR, Status.OK, Status.OK, Status.OK, Status.OK, Status.OK]
      (by decide) (by decide) (by decide) (by decide)).1
    ⟨by decide, by norm_num⟩

/-- C2: for every nonempty multiset of log statuses with at least two
distinct values, no RUNNING and no ERROR, the result is WARNING exactly when
the distinct statuses are OK and WARNING; any other combination raises the
defensive AssertionError instead of returning a Status, and any such abort is
never scoped to the offending subtask: a pass that completed processed every
group without an exception. -/
theorem subtask_status_warning_iff_ok_warning (fs : FS) (cwd path : String)
    (l : List Status)
    (hl : (log_paths_with_statuses fs cwd path []).map (fun e => e.2) = l)
    (hne : l ≠ [])
    (hmix : ∃ a ∈ l, ∃ b ∈ l, a ≠ b)
    (hrun : Status.RUNNING ∉ l)
    (herr : Status.ERROR ∉ l) :
    (parse_subtask_status fs cwd path = Except.ok Status.WARNING ↔
        ((∀ t ∈ l, t = Status.OK ∨ t = Status.WARNING)
          ∧ Status.OK ∈ l ∧ Status.WARNING ∈ l))
    ∧ (¬((∀ t ∈ l, t = Status.OK ∨ t = Status.WARNING)
          ∧ Status.OK ∈ l ∧ Status.WARNING ∈ l) →
        parse_subtask_status fs cwd path = Except.error assert_set_msg)
    ∧ (∀ (fs2 : FS) (cwd2 : String) (colored : Status → String) (sw : Nat)
        (root wp : String) (gs : List Group) (wrap : Nat) (g : Group),
        g ∈ gs →
        (mainModel fs2 cwd2 colored sw root wp gs wrap).err = none →
        ∃ r, (processGroup fs2 cwd2 colored sw wp wrap g).2.2 = Except.ok r) := by
  refine ⟨?_, ?_, ?_⟩
  · rw [parse_subtask_status_eq hl, parse_no_error_branch hmix hrun herr]
    constructor
    · intro h
      by_contra hset
      rw [if_neg hset] at h
      exact Except.noConfusion h
    · intro hset
      rw [if_pos hset]
  · intro hset
    rw [parse_subtask_status_eq hl, parse_no_error_branch hmix hrun herr,
      if_neg hset]
  · intro fs2 cwd2 colored sw root wp gs wrap g hg h
    exact mainModel_complete_groups_ok h g hg

/-- Witness for C2: an OK log next to a WARNING log yields WARNING. -/
theorem subtask_status_warning_iff_ok_warning_witness :
    parse_subtask_status fsW2 "/c" "/w/s" = Except.ok Status.WARNING :=
  (subtask_status_warning_iff_ok_warning fsW2 "/c" "/w/s"
      [Status.OK, Status.WARNING]
      (by decide) (by decide) (by decide) (by decide) (by decide)).1.mpr
    ⟨by decide, by decide, by decide⟩

/-- C3: for every nonempty multiset of log statuses, a single shared value X
is returned as X (the rule applied first); otherwise any RUNNING log forces
RUNNING regardless of the other statuses. -/
theorem subtask_status_unanimity_then_running (fs : FS) (cwd path : String)
    (l : List Status)
    (hl : (log_paths_with_statuses fs cwd path []).map (fun e => e.2) = l) :
    (∀ x : Status, l ≠ [] → (∀ t ∈ l, t = x) →
        parse_subtask_status fs cwd path = Except.ok x)
    ∧ ((∃ a ∈ l, ∃ b ∈ l, a ≠ b) → Status.RUNNING ∈ l →
        parse_subtask_status fs cwd path = Except.ok Status.RUNNING) := by
  constructor
  · intro x hne hall
    rw [parse_subtask_status_eq hl]
    cases l with
    | nil => exact absurd rfl hne
    | cons s rest =>
      have hs : s = x := hall s (List.mem_cons_self s rest)
      have hrest : ∀ t ∈ rest, t = s := fun t ht =>
        (hall t (List.mem_cons_of_mem s ht)).trans hs.symm
      simp only [parse_status_list]
      rw [if_pos hrest, hs]
  · intro hmix hrun
    rw [parse_subtask_status_eq hl]
    cases l with
    | nil => exact absurd hrun (List.not_mem_nil _)
    | cons s rest =>
      simp only [parse_status_list]
      rw [if_neg (not_all_tail_eq_of_mixed hmix), if_pos hrun]

/-- Witness for C3: two OK logs next to a RUNNING log yield RUNNING. -/
theorem subtask_status_unanimity_then_running_witness :
    parse_subtask_status fsW3 "/c" "/w/s" = Except.ok Status.RUNNING :=
  (subtask_status_unanimity_then_running fsW3 "/c" "/w/s"
      [Status.OK, Status.OK, Status.RUNNING] (by decide)).2
    (by decide) (by decide)

/-- C10: with no RUNNING log, the OK_1E and OK_2E verdicts constrain nothing
but the error count and the total: any statuses of the non-error logs
qualify.  In particular one ERROR among six logs whose other five are all TBD
(no OK present) gives OK_1E, and two ERRORs among eleven logs whose others
are a mix of TBD and WARNING give OK_2E. -/
theorem subtask_status_tolerance_ignores_non_error_logs (fs : FS)
    (cwd path : String) (l : List Status)
    (hl : (log_paths_with_statuses fs cwd path []).map (fun e => e.2) = l)
    (hrun : Status.RUNNING ∉ l) :
    ((l.count Status.ERROR = 1 ∧ (1 : ℚ) / (l.length : ℚ) < 0.2) →
        parse_subtask_status fs cwd path = Except.ok Status.OK_1E)
    ∧ ((l.count Status.ERROR = 2 ∧ (2 : ℚ) / (l.length : ℚ) < 0.2) →
        parse_subtask_status fs cwd path = Except.ok Status.OK_2E)
    ∧ parse_status_list (Status.ERROR :: List.replicate 5 Status.TBD)
        = Except.ok Status.OK_1E
    ∧ parse_status_list (Status.ERROR :: Status.ERROR :: Status.WARNING ::
        (List.replicate 5 Status.TBD ++ List.replicate 3 Status.WARNING))
        = Except.ok Status.OK_2E := by
  refine ⟨?_, ?_, by decide, by decide⟩
  · rintro ⟨hc, hf⟩
    have hlen : 0 < l.length := by
      have := List.count_le_length Status.ERROR l
      omega
    have h5 : 5 * 1 < l.length :=
      (frac_lt_point_two_iff hlen).mp (by exact_mod_cast hf)
    have hmix : ∃ a ∈ l, ∃ b ∈ l, a ≠ b :=
      @mixed_of_count l Status.ERROR (by omega) (by omega)
    rw [parse_subtask_status_eq hl]
    exact parse_ok1e hmix hrun hc (by rw [hc]; exact h5)
  · rintro ⟨hc, hf⟩
    have hlen : 0 < l.length := by
      have := List.count_le_length Status.ERROR l
      omega
    have h5 : 5 * 2 < l.length :=
      (frac_lt_point_two_iff hlen).mp (by exact_mod_cast hf)
    have hmix : ∃ a ∈ l, ∃ b ∈ l, a ≠ b :=
      @mixed_of_count l Status.ERROR (by omega) (by omega)
    rw [parse_subtask_status_eq hl]
    exact parse_ok2e hmix hrun hc (by rw [hc]; exact h5)

/-- Witness for C10: one ERROR whose five companions are all TBD, with no OK
log at all, still yields OK_1E. -/
theorem subtask_status_tolerance_ignores_non_error_logs_witness :
    parse_subtask_status fsW10 "/c" "/w/s" = Except.ok Status.OK_1E :=
  (subtask_status_tolerance_ignores_non_error_logs fsW10 "/c" "/w/s"
      [Status.ERROR, Status.TBD, Status.TBD, Status.TBD, Status.TBD, Status.TBD]
      (by decide) (by decide)).1 ⟨by decide, by norm_num⟩

/-- The assert of line 53 fires before anything of its row is processed. -/
lemma processRow_mismatch {fs : FS} {cwd : String} {colored : Status → String}
    {sw : Nat} {wp : String} {skeys : List String} {twidth wrap : Nat}
    {t : Task} {r : Row} (hmm : r.task ≠ t.name) :
    processRow fs cwd colored sw wp skeys twidth wrap t r
      = ([], [], Except.error (r.task ++ " does not match " ++ t.name)) := by
  simp only [processRow]
  rw [if_pos hmm]

/-- C4 (amended): a cell whose directory does not exist or holds no log file
is classified TBD without an error; a blank cell, in contrast, is not
handled: joining it to the work root raises a TypeError that aborts the row
before anything of it is processed. -/
theorem subtask_status_tbd_on_empty_glob (fs : FS) (cwd path : String)
    (h : fs (pathJoin cwd path) = []) :
    parse_subtask_status fs cwd path = Except.ok Status.TBD
    ∧ (∀ (colored : Status → String) (sw : Nat) (wp : String)
        (skeys : List String) (twidth wrap : Nat) (task : Task) (row : Row),
        row.task = task.name →
        (∃ k ∈ skeys, row.get k = none) →
        processRow fs cwd colored sw wp skeys twidth wrap task row
          = ([], [], Except.error type_error_msg)) := by
  constructor
  · unfold parse_subtask_status log_paths_with_statuses
    rw [h]
    rfl
  · intro colored sw wp skeys twidth wrap task row hname hblank
    obtain ⟨k, hk, hget⟩ := hblank
    simp only [processRow]
    rw [if_neg (fun hne => hne hname),
      if_pos (List.mem_map.mpr ⟨k, hk, hget⟩)]

/-- Witness for C4 (amended): an empty snapshot classifies any directory as
TBD. -/
theorem subtask_status_tbd_on_empty_glob_witness :
    parse_subtask_status fsEmpty "/c" "/nowhere" = Except.ok Status.TBD :=
  (subtask_status_tbd_on_empty_glob fsEmpty "/c" "/nowhere" rfl).1

/-- Counterexample for C4 as stated: a blank matrix cell does not yield TBD;
it aborts the whole pass with a TypeError. -/
theorem blank_cell_aborts_counterexample :
    (mainModel fsEmpty "/c" (fun _ => "S") 2 "/r" "/w" [gBlank] 18).err
      = some type_error_msg := by decide

/-- C5 evaluation at the failing input: the cell status pass resolves the
cell against the work root and sees the ERROR log, but the non-OK record
collection globs the relative cell path against the process working
directory, so with cwd /home distinct from the work root /scratch the
completed report contains no diagnostic listing at all; and even with cwd
equal to the work root the listed path is the relative sub/a/out.log, not an
absolute path. -/
theorem non_ok_digest_misses_error_logs :
    parse_subtask_status fsScratch "/home" "/scratch/sub/a"
        = Except.ok Status.ERROR
    ∧ (mainModel fsScratch "/home" (fun _ => "S") 2 "/r" "/scratch"
        [gScratch] 18).err = none
    ∧ "Non-OK log files in /scratch:" ∉
        (mainModel fsScratch "/home" (fun _ => "S") 2 "/r" "/scratch"
          [gScratch] 18).lines
    ∧ (mainModel fsScratch "/scratch" (fun _ => "S") 2 "/r" "/scratch"
        [gScratch] 18).lines
        = ["taskk1", "AS ", "",
          "Non-OK log files in /scratch:", "A k1 sub/a/out.log S", ""] := by
  exact ⟨by decide, by decide, by decide, by decide⟩

/-- C7 (amended): the catalog-matrix integrity check runs per row in the
middle of rendering: if the first i rows process cleanly and row i disagrees
with task i, the loop stops with a fatal AssertionError naming the offending
row and task, keeping exactly the lines already printed for the earlier
rows. -/
theorem integrity_check_per_row_fatal (fs : FS) (cwd : String)
    (colored : Status → String) (sw : Nat) (wp : String) (skeys : List String)
    (twidth wrap : Nat) (tasks1 : List Task) (rows1 : List Row)
    (t : Task) (r : Row) (ts : List Task) (rs : List Row)
    (recs1 : List LogRecord)
    (hok : (processRows fs cwd colored sw wp skeys twidth wrap tasks1 rows1).2.2
        = Except.ok recs1)
    (hlen : tasks1.length = rows1.length)
    (hmm : r.task ≠ t.name) :
    processRows fs cwd colored sw wp skeys twidth wrap
        (tasks1 ++ t :: ts) (rows1 ++ r :: rs)
      = ((processRows fs cwd colored sw wp skeys twidth wrap tasks1 rows1).1,
        (processRows fs cwd colored sw wp skeys twidth wrap tasks1 rows1).2.1,
        Except.error (r.task ++ " does not match " ++ t.name)) := by
  induction tasks1 generalizing rows1 recs1 with
  | nil =>
    cases rows1 with
    | nil =>
      simp only [List.nil_append, processRows, processRow_mismatch hmm]
    | cons r1 rows1 => simp at hlen
  | cons t1 tasks1 ih =>
    cases rows1 with
    | nil => simp at hlen
    | cons r1 rows1 =>
      rcases hpr : processRow fs cwd colored sw wp skeys twidth wrap t1 r1
        with ⟨ls, ops, res⟩
      cases res with
      | error e =>
        exfalso
        rw [processRows, hpr] at hok
        simp at hok
      | ok recs0 =>
        rcases hrows : processRows fs cwd colored sw wp skeys twidth wrap
            tasks1 rows1 with ⟨ls2, ops2, res2⟩
        rw [processRows, hpr, hrows] at hok
        cases res2 with
        | error e2 => simp [Except.map] at hok
        | ok recs2 =>
          have hih := ih rows1 recs2 (by rw [hrows]) (by simpa using hlen)
          simp only [List.cons_append, processRows, hpr]
          simp only [List.append_eq]
          rw [hih, hrows]
          simp [Except.map]

/-- Witness for C7 (amended): with one clean leading row, a mismatching
second row aborts with the assert message while the first row stays
rendered. -/
theorem integrity_check_per_row_fatal_witness :
    processRows fsEmpty "/c" (fun _ => "S") 2 "/w" ["k1"] 1 18
        ([Task.mk "A" ["k1"]] ++ Task.mk "B" ["k1"] :: [])
        ([Row.mk "A" (fun _ => some "x")] ++ Row.mk "C" (fun _ => some "x") :: [])
      = ((processRows fsEmpty "/c" (fun _ => "S") 2 "/w" ["k1"] 1 18
            [Task.mk "A" ["k1"]] [Row.mk "A" (fun _ => some "x")]).1,
        (processRows fsEmpty "/c" (fun _ => "S") 2 "/w" ["k1"] 1 18
            [Task.mk "A" ["k1"]] [Row.mk "A" (fun _ => some "x")]).2.1,
        Except.error ("C" ++ " does not match " ++ "B")) :=
  integrity_check_per_row_fatal fsEmpty "/c" (fun _ => "S") 2 "/w" ["k1"] 1 18
    [Task.mk "A" ["k1"]] [Row.mk "A" (fun _ => some "x")]
    (Task.mk "B" ["k1"]) (Row.mk "C" (fun _ => some "x")) [] [] []
    (by decide) rfl (by decide)

/-- Counterexample for C7 as stated: the integrity check is not an eager
load-time validation performed before rendering: on a group whose very first
row mismatches, the group header has already been rendered when the fatal
mismatch error (naming the offending row and task) is raised. -/
theorem integrity_mismatch_after_render_counterexample :
    (processGroup fsEmpty "/c" (fun _ => "S") 2 "/w" 18 gMismatch).1 ≠ []
    ∧ (processGroup fsEmpty "/c" (fun _ => "S") 2 "/w" 18 gMismatch).2.2
        = Except.error "B does not match A" := by
  exact ⟨by decide, by decide⟩

/-- The number of chunks produced under sufficient fuel is the rounded-up
quotient of the length by the chunk size. -/
lemma chunkedAux_length {α : Type} (n : Nat) (hn : 0 < n) :
    ∀ (fuel : Nat) (l : List α), l.length ≤ fuel →
      (chunkedAux n fuel l).length = (l.length + n - 1) / n := by
  intro fuel
  induction fuel with
  | zero =>
    intro l hl
    have h0 : l = [] := List.eq_nil_of_length_eq_zero (Nat.le_zero.mp hl)
    subst h0
    simp only [chunkedAux, List.length_nil]
    exact (Nat.div_eq_of_lt (by omega)).symm
  | succ fuel ih =>
    intro l hl
    cases l with
    | nil =>
      simp only [chunkedAux, List.length_nil]
      exact (Nat.div_eq_of_lt (by omega)).symm
    | cons x xs =>
      simp only [chunkedAux, List.length_cons]
      rw [ih ((x :: xs).drop n)
        (by
          rw [List.length_drop]
          simp only [List.length_cons] at hl ⊢
          omega)]
      rw [List.length_drop, List.length_cons]
      have h1 : xs.length + 1 + n - 1 = (xs.length + 1 - 1) + n := by omega
      rw [h1, Nat.add_div_right _ hn]
      by_cases hL : n ≤ xs.length + 1
      · have h2 : xs.length + 1 - n + n - 1 = xs.length + 1 - 1 := by omega
        rw [h2]
      · have h2 : xs.length + 1 - n = 0 := by omega
        rw [h2]
        rw [Nat.div_eq_of_lt (by omega : 0 + n - 1 < n),
          Nat.div_eq_of_lt (by omega : xs.length + 1 - 1 < n)]

/-- Every chunk has at most n elements. -/
lemma chunkedAux_chunk_le {α : Type} (n : Nat) :
    ∀ (fuel : Nat) (l : List α) (c : List α),
      c ∈ chunkedAux n fuel l → c.length ≤ n := by
  intro fuel
  induction fuel with
  | zero =>
    intro l c hc
    cases l <;> simp [chunkedAux] at hc
  | succ fuel ih =>
    intro l c hc
    cases l with
    | nil => simp [chunkedAux] at hc
    | cons x xs =>
      simp only [chunkedAux, List.mem_cons] at hc
      rcases hc with h | h
      · subst h
        exact List.length_take_le n (x :: xs)
      · exact ih _ c h

/-- After the first chunk the label is dropped: every continuation line is
rendered with the blank label. -/
lemma row_chunk_lines_blank (sw lw : Nat) (cs : List (List String)) :
    row_chunk_lines sw lw "" cs = cs.map (chunk_line sw lw "") := by
  induction cs with
  | nil => rfl
  | cons c cs ih => simp [row_chunk_lines, ih]

/-- A string built from k copies of a character has length k. -/
lemma replicate_string_length (k : Nat) (ch : Char) :
    (String.mk (List.replicate k ch)).length = k := by
  simp [String.length]

/-- C6: with a positive wrap width W, a row of N cells is printed in exactly
ceil(N/W) chunks of at most W columns each; the task label appears only on
the first chunk, continuations carry the blank label; and exactly when N
exceeds W a horizontal divider of width label-width + (STATUS_WIDTH + 1) * W
accompanies the row (the same guide that precedes the header). -/
theorem print_task_row_wrapping (sw lw wrap : Nat) (label : String)
    (vals : List String) (hw : 0 < wrap) :
    (chunked vals wrap).length = (vals.length + wrap - 1) / wrap
    ∧ (∀ c ∈ chunked vals wrap, c.length ≤ wrap)
    ∧ print_task_row sw label vals lw wrap
        = row_chunk_lines sw lw label (chunked vals wrap)
          ++ print_long_row_guide sw lw vals.length wrap '-'
    ∧ (∀ (c : List String) (cs : List (List String)),
        row_chunk_lines sw lw label (c :: cs)
          = chunk_line sw lw label c :: cs.map (chunk_line sw lw ""))
    ∧ (∀ (nvals : Nat) (ch : Char), wrap < nvals →
        print_long_row_guide sw lw nvals wrap ch
          = [String.mk (List.replicate (lw + (sw + 1) * wrap) ch)])
    ∧ (∀ (nvals : Nat) (ch : Char), nvals ≤ wrap →
        print_long_row_guide sw lw nvals wrap ch = [])
    ∧ (∀ ch : Char,
        (String.mk (List.replicate (lw + (sw + 1) * wrap) ch)).length
          = lw + (sw + 1) * wrap) := by
  refine ⟨?_, ?_, rfl, ?_, ?_, ?_, ?_⟩
  · unfold chunked
    rw [if_neg (by omega)]
    exact chunkedAux_length wrap hw vals.length vals le_rfl
  · intro c hc
    unfold chunked at hc
    rw [if_neg (by omega)] at hc
    exact chunkedAux_chunk_le wrap vals.length vals c hc
  · intro c cs
    simp [row_chunk_lines, row_chunk_lines_blank]
  · intro nvals ch h
    unfold print_long_row_guide
    rw [if_pos h]
  · intro nvals ch h
    unfold print_long_row_guide
    rw [if_neg (by omega)]
  · intro ch
    exact replicate_string_length _ ch

/-- Witness for C6: wrap 3 over seven partition keys gives exactly three
chunks. -/
theorem print_task_row_wrapping_witness :
    (chunked ["p1", "p2", "p3", "p4", "p5", "p6", "p7"] 3).length = 3 := by
  have h := (print_task_row_wrapping 2 4 3 "A"
    ["p1", "p2", "p3", "p4", "p5", "p6", "p7"] (by decide)).1
  simpa using h

/-- C8: the classification of a subtask directory depends only on that
directory's content at call time (two snapshots agreeing there classify it
identically), and a whole status pass over an unchanged tree (snapshots
agreeing everywhere) prints the identical report: the pass is a pure
function of its inputs. -/
theorem status_pass_deterministic (fs fs2 : FS) (cwd path : String)
    (h : fs (pathJoin cwd path) = fs2 (pathJoin cwd path)) :
    parse_subtask_status fs cwd path = parse_subtask_status fs2 cwd path
    ∧ (∀ (fsa fsb : FS) (cwd2 : String) (colored : Status → String) (sw : Nat)
        (root wp : String) (gs : List Group) (wrap : Nat),
        (∀ d, fsa d = fsb d) →
        mainModel fsa cwd2 colored sw root wp gs wrap
          = mainModel fsb cwd2 colored sw root wp gs wrap) := by
  constructor
  · unfold parse_subtask_status log_paths_with_statuses
    rw [h]
  · intro fsa fsb cwd2 colored sw root wp gs wrap hagree
    have hf : fsa = fsb := funext hagree
    rw [hf]

/-- Witness for C8: two snapshots differing away from the directory classify
it identically. -/
theorem status_pass_deterministic_witness :
    parse_subtask_status fsAgreeA "/c" "/w/s"
      = parse_subtask_status fsAgreeB "/c" "/w/s" :=
  (status_pass_deterministic fsAgreeA fsAgreeB "/c" "/w/s" (by decide)).1

/-- Concatenation preserves write-freedom of operation traces. -/
lemma writeFree_append {a b : List FsOp}
    (ha : ∀ op ∈ a, op.isWrite = false) (hb : ∀ op ∈ b, op.isWrite = false) :
    ∀ op ∈ a ++ b, op.isWrite = false := by
  intro op hop
  rcases List.mem_append.mp hop with h | h
  · exact ha op h
  · exact hb op h

/-- A glob with its per-log reads issues no write. -/
lemma writeFree_log_glob_ops (fs : FS) (cwd p : String) :
    ∀ op ∈ log_glob_ops fs cwd p, op.isWrite = false := by
  intro op hop
  simp only [log_glob_ops, List.mem_cons, List.mem_map] at hop
  rcases hop with rfl | ⟨e, _, rfl⟩ <;> rfl

/-- Classifying the row cells issues no write. -/
lemma writeFree_subtask_stats_of (fs : FS) (cwd : String)
    (colored : Status → String) :
    ∀ ps : List String, ∀ op ∈ (subtask_stats_of fs cwd colored ps).1,
      op.isWrite = false := by
  intro ps
  induction ps with
  | nil => intro op hop; simp [subtask_stats_of] at hop
  | cons p ps ih =>
    rw [subtask_stats_of]
    split
    · next e heq =>
      exact writeFree_log_glob_ops fs cwd p
    · next s heq =>
      split
      · next ops2 r heq2 =>
        refine writeFree_append (writeFree_log_glob_ops fs cwd p) ?_
        intro o ho
        exact ih o (by rw [heq2]; exact ho)

/-- Collecting the non-OK records issues no write. -/
lemma writeFree_collect_non_ok (fs : FS) (cwd tn : String) :
    ∀ l : List (String × String), ∀ op ∈ (collect_non_ok fs cwd tn l).1,
      op.isWrite = false := by
  intro l
  induction l with
  | nil => intro op hop; simp [collect_non_ok] at hop
  | cons e rest ih =>
    rcases e with ⟨skey, spath⟩
    rw [collect_non_ok]
    split
    · next ops2 recs2 heq2 =>
      refine writeFree_append (writeFree_log_glob_ops fs cwd spath) ?_
      intro o ho
      exact ih o (by rw [heq2]; exact ho)

/-- A singleton read issues no write. -/
lemma writeFree_single_read (p : String) :
    ∀ op ∈ [FsOp.readFile p], op.isWrite = false := by
  intro op hop
  simp only [List.mem_singleton] at hop
  subst hop
  rfl

/-- Two reads issue no write. -/
lemma writeFree_pair_reads (p q : String) :
    ∀ op ∈ [FsOp.readFile p, FsOp.readFile q], op.isWrite = false := by
  intro op hop
  simp only [List.mem_cons, List.not_mem_nil, or_false] at hop
  rcases hop with rfl | rfl <;> rfl

/-- Processing one row issues no write. -/
lemma writeFree_processRow (fs : FS) (cwd : String) (colored : Status → String)
    (sw : Nat) (wp : String) (skeys : List String) (twidth wrap : Nat)
    (t : Task) (r : Row) :
    ∀ op ∈ (processRow fs cwd colored sw wp skeys twidth wrap t r).2.1,
      op.isWrite = false := by
  intro op hop
  simp only [processRow] at hop
  split at hop
  · simp at hop
  · split at hop
    · simp at hop
    · split at hop
      · next ops e heq =>
        exact writeFree_subtask_stats_of fs cwd colored _ op
          (by rw [heq]; exact hop)
      · next ops stats heq =>
        dsimp only at hop
        rcases List.mem_append.mp hop with ho | ho
        · exact writeFree_subtask_stats_of fs cwd colored _ op
            (by rw [heq]; exact ho)
        · exact writeFree_collect_non_ok fs cwd t.name _ op ho

/-- Processing the rows of a group issues no write. -/
lemma writeFree_processRows (fs : FS) (cwd : String)
    (colored : Status → String) (sw : Nat) (wp : String) (skeys : List String)
    (twidth wrap : Nat) :
    ∀ (ts : List Task) (rs : List Row),
      ∀ op ∈ (processRows fs cwd colored sw wp skeys twidth wrap ts rs).2.1,
        op.isWrite = false := by
  intro ts rs
  induction rs generalizing ts with
  | nil =>
    cases ts <;> (intro op hop; simp [processRows] at hop)
  | cons r rs ih =>
    cases ts with
    | nil => intro op hop; simp [processRows] at hop
    | cons t ts =>
      rw [processRows]
      split
      · next ls ops e heq =>
        intro op hop
        exact writeFree_processRow fs cwd colored sw wp skeys twidth wrap t r op
          (by rw [heq]; exact hop)
      · next ls ops recs heq =>
        split
        · next ls2 ops2 res2 heq2 =>
          refine writeFree_append ?_ ?_
          · intro o ho
            exact writeFree_processRow fs cwd colored sw wp skeys twidth wrap t r o
              (by rw [heq]; exact ho)
          · intro o ho
            exact ih ts o (by rw [heq2]; exact ho)

/-- Processing one group issues no write. -/
lemma writeFree_processGroup (fs : FS) (cwd : String)
    (colored : Status → String) (sw : Nat) (wp : String) (wrap : Nat)
    (g : Group) :
    ∀ op ∈ (processGroup fs cwd colored sw wp wrap g).2.1,
      op.isWrite = false := by
  rw [processGroup]
  split
  · next ls ops e heq =>
    intro op hop
    exact writeFree_processRows fs cwd colored sw wp (subtask_keys g.tasks)
      (task_column_width g.tasks) wrap g.tasks g.rows op (by rw [heq]; exact hop)
  · next ls ops recs heq =>
    intro op hop
    exact writeFree_processRows fs cwd colored sw wp (subtask_keys g.tasks)
      (task_column_width g.tasks) wrap g.tasks g.rows op (by rw [heq]; exact hop)

/-- Processing all groups issues reads of the two per-group artifacts and the
row operations, never a write. -/
lemma writeFree_runGroups (fs : FS) (cwd : String)
    (colored : Status → String) (sw : Nat) (root wp : String) (wrap : Nat) :
    ∀ gs : List Group,
      ∀ op ∈ (runGroups fs cwd colored sw root wp wrap gs).2.1,
        op.isWrite = false := by
  intro gs
  induction gs with
  | nil => intro op hop; simp [runGroups] at hop
  | cons g gs ih =>
    intro op hop
    rw [runGroups] at hop
    split at hop
    · next ls ops e heq =>
      dsimp only at hop
      rcases List.mem_append.mp hop with ho | ho
      · exact writeFree_pair_reads _ _ op ho
      · exact writeFree_processGroup fs cwd colored sw wp wrap g op
          (by rw [heq]; exact ho)
    · next ls ops recs heq =>
      dsimp only at hop
      rcases List.mem_append.mp hop with ho | ho
      · rcases List.mem_append.mp ho with ho2 | ho2
        · exact writeFree_pair_reads _ _ op ho2
        · exact writeFree_processGroup fs cwd colored sw wp wrap g op
            (by rw [heq]; exact ho2)
      · exact ih op ho

/-- The whole status pass issues only glob and read operations. -/
lemma writeFree_mainModel (fs : FS) (cwd : String)
    (colored : Status → String) (sw : Nat) (root wp : String)
    (gs : List Group) (wrap : Nat) :
    ∀ op ∈ (mainModel fs cwd colored sw root wp gs wrap).ops,
      op.isWrite = false := by
  intro op hop
  rw [mainModel] at hop
  split at hop
  · next ls ops e heq =>
    dsimp only at hop
    rcases List.mem_append.mp hop with ho | ho
    · exact writeFree_single_read _ op ho
    · exact writeFree_runGroups fs cwd colored sw root wp wrap gs op
        (by rw [heq]; exact ho)
  · next ls ops recs heq =>
    dsimp only at hop
    rcases List.mem_append.mp hop with ho | ho
    · exact writeFree_single_read _ op ho
    · exact writeFree_runGroups fs cwd colored sw root wp wrap gs op
        (by rw [heq]; exact ho)

/-- A write-free operation trace leaves every filesystem snapshot unchanged. -/
lemma applyOps_id :
    ∀ ops : List FsOp, (∀ op ∈ ops, op.isWrite = false) →
      ∀ w : FS, applyOps w ops = w := by
  intro ops
  induction ops with
  | nil => intro _ w; rfl
  | cons op ops ih =>
    intro h w
    have hop := h op (List.mem_cons_self op ops)
    have hw : applyOp w op = w := by
      cases op with
      | glob d => rfl
      | readFile p => rfl
      | writeFile p => simp [FsOp.isWrite] at hop
    simp only [applyOps, List.foldl_cons]
    rw [hw]
    exact ih (fun o ho => h o (List.mem_cons_of_mem op ho)) w

/-- C9: a status pass never writes: every operation of its trace is a glob or
a read, and interpreting the trace against any filesystem state (manifest,
catalog, matrix and logs included) leaves that state unchanged, so repeated
invocation leaves all persisted state as it was. -/
theorem status_pass_read_only (fs : FS) (cwd : String)
    (colored : Status → String) (sw : Nat) (root wp : String)
    (gs : List Group) (wrap : Nat) :
    (∀ op ∈ (mainModel fs cwd colored sw root wp gs wrap).ops,
      op.isWrite = false)
    ∧ (∀ w : FS, applyOps w (mainModel fs cwd colored sw root wp gs wrap).ops = w) := by
  have h := writeFree_mainModel fs cwd colored sw root wp gs wrap
  exact ⟨h, fun w => applyOps_id _ h w⟩

end Automech
